import Mathlib

/-!
Verification of the feedback-driven profile adaptation engine of the
intelligencelayer repository: the confidence-weighted Rocchio updater
(src/feedback/enhanced_rocchio.py), the conversation-based confidence
estimator (src/feedback/conversation.py), the FAISS-backed vector search
(src/matcher/vector_store.py), the opportunity matcher
(src/matcher/matcher.py) and the batch profile adaptation
(src/profiles/enhanced_profiles.py).

Python floats are modelled by real numbers; numpy 1-D arrays by lists.
Operations that raise in Python (numpy shape errors, a TypeError from
testing membership in None) are modelled in the Except monad; functions
whose Python bodies swallow exceptions are total.
-/

namespace IntelligenceLayer

/-! ## Vector primitives (numpy 1-D semantics over lists of reals) -/

namespace Rocchio

noncomputable section

/-- Dot product of two equally long vectors, sum of pointwise products. -/
def dot (u v : List ℝ) : ℝ := (List.zipWith (fun a b => a * b) u v).sum

/-- Squared L2 norm, the sum of squares. -/
def norm2 (v : List ℝ) : ℝ := dot v v

/-- Model of np.linalg.norm: square root of the sum of squares. -/
def nrm (v : List ℝ) : ℝ := Real.sqrt (norm2 v)

/-- Scalar times vector, model of scalar * np.array broadcasting. -/
def smul (c : ℝ) (v : List ℝ) : List ℝ := v.map (fun x => c * x)

/-- Pointwise sum of two equally long vectors. -/
def vadd (u v : List ℝ) : List ℝ := List.zipWith (fun a b => a + b) u v

/-- Vector divided componentwise by a scalar, model of np.array / scalar. -/
def vdiv (v : List ℝ) (s : ℝ) : List ℝ := v.map (fun x => x / s)

/-- Model of np.array on a list of row vectors: modern numpy raises
ValueError when the rows have inhomogeneous lengths. -/
def stack (l : List (List ℝ)) : Except Unit (List (List ℝ)) :=
  if l.all (fun w => w.length = (l.headD []).length) then .ok l else .error ()

/-- Model of numpy addition of two 1-D arrays: equal shapes add pointwise,
a length-1 operand broadcasts against the other, anything else raises. -/
def add1 (a b : List ℝ) : Except Unit (List ℝ) :=
  if a.length = b.length then .ok (List.zipWith (fun x y => x + y) a b)
  else if a.length = 1 then .ok (b.map (fun y => a.headD 0 + y))
  else if b.length = 1 then .ok (a.map (fun x => x + b.headD 0))
  else .error ()

/-- Model of numpy subtraction of two 1-D arrays, same shape rules as
`add1`. -/
def sub1 (a b : List ℝ) : Except Unit (List ℝ) :=
  if a.length = b.length then .ok (List.zipWith (fun x y => x - y) a b)
  else if a.length = 1 then .ok (b.map (fun y => a.headD 0 - y))
  else if b.length = 1 then .ok (a.map (fun x => x - b.headD 0))
  else .error ()

/-- One feedback item as passed to EnhancedRocchioUpdater.update_embedding:
(embedding or None, confidence, feedback_type). -/
def FeedbackItem : Type := Option (List ℝ) × ℝ × String

/-- The classification loop of update_embedding: items without an embedding
are dropped, "like" goes to the positive pile, "skip" and "dislike" to the
negative pile, anything else (neutral) is ignored. -/
def classify (items : List FeedbackItem) : List (List ℝ × ℝ) × List (List ℝ × ℝ) :=
  (items.filterMap (fun it =>
      match it.1 with
      | none => none
      | some e => if it.2.2 = "like" then some (e, it.2.1) else none),
   items.filterMap (fun it =>
      match it.1 with
      | none => none
      | some e => if it.2.2 = "skip" ∨ it.2.2 = "dislike" then some (e, it.2.1) else none))

/-- Row-wise weighted sum: model of np.sum(vectors * weights.reshape(-1,1),
axis=0) for a stack of equally long rows. -/
def weightedSum (vecs : List (List ℝ)) (ws : List ℝ) : List ℝ :=
  (List.zipWith smul ws vecs).foldr vadd (List.replicate (vecs.headD []).length 0)

/-- Confidence-weighted centroid of one pile: zeros_like(original) for an
empty pile, otherwise the stacked weighted sum divided by the weight sum. -/
def centroidOf (orig : List ℝ) (l : List (List ℝ × ℝ)) : Except Unit (List ℝ) :=
  if l.isEmpty then .ok (List.replicate orig.length 0)
  else
    match stack (l.map Prod.fst) with
    | .error e => .error e
    | .ok m => .ok (vdiv (weightedSum m (l.map Prod.snd)) (l.map Prod.snd).sum)

/-- Body of the try block of update_embedding up to (and excluding) the
normalization step: alpha * original + beta * positive_centroid -
gamma * negative_centroid, with numpy broadcasting semantics. -/
def rocchioRaw (alpha beta gamma : ℝ) (orig : List ℝ) (items : List FeedbackItem) :
    Except Unit (List ℝ) :=
  match centroidOf orig (classify items).1 with
  | .error e => .error e
  | .ok pc =>
    match centroidOf orig (classify items).2 with
    | .error e => .error e
    | .ok nc =>
      match add1 (smul alpha orig) (smul beta pc) with
      | .error e => .error e
      | .ok s1 => sub1 s1 (smul gamma nc)

/-- Model of EnhancedRocchioUpdater.update_embedding: run the Rocchio
combination, divide by the norm when it is positive, and on any internal
exception return the original embedding unchanged (the except branch at
the end of the method). -/
def update_embedding (alpha beta gamma : ℝ) (orig : List ℝ)
    (items : List FeedbackItem) : List ℝ :=
  match rocchioRaw alpha beta gamma orig items with
  | .error _ => orig
  | .ok w => if nrm w > 0 then vdiv w (nrm w) else w

/-- Cosine similarity of two vectors, the measurement used by the spec for
the monotone-pull property. -/
def cosineSim (u v : List ℝ) : ℝ := dot u v / (nrm u * nrm v)

end

end Rocchio

/-! ## Conversation-based confidence estimation
(src/feedback/conversation.py, calculate_feedback_confidence) -/

namespace Conv

/-- Model of calculate_feedback_confidence: interest level (from the
conversation analysis, 0-10 scale), message count and duration seconds
(from the engagement metrics, default 0), and the number of questions
(len of the analysis questions list). Numbers are modelled as rationals. -/
def calculate_feedback_confidence (interest_level message_count duration_seconds : ℚ)
    (question_count : ℕ) : ℚ :=
  let interest_score := interest_level / 10
  let msg_count_factor := min (message_count / 5) 1
  let time_factor := min (duration_seconds / 120) 1
  let question_penalty := min ((question_count : ℚ) * (1/10)) (3/10)
  max (1/10) (min 1
    (interest_score * (6/10) + msg_count_factor * (2/10) + time_factor * (2/10)
      - question_penalty))

/-- Clamp of x into the closed interval from lo to hi, as written in the
spec formula clamp(lo, hi, x). -/
def clamp (lo hi x : ℚ) : ℚ := max lo (min hi x)

/-- Modelled from the spec: the confidence formula of section 4.3, written
exactly in the form the spec gives it, for comparison with the source
function. -/
def estimate_confidence_spec (interest_level message_count duration_seconds : ℚ)
    (question_count : ℕ) : ℚ :=
  clamp (1/10) 1
    ((6/10) * (interest_level / 10) + (2/10) * min (message_count / 5) 1
      + (2/10) * min (duration_seconds / 120) 1 - min ((question_count : ℚ) * (1/10)) (3/10))

end Conv

/-! ## FAISS-backed vector search (src/matcher/vector_store.py)

The on-disk index of load_index is abstracted as the pair of the stored
vector matrix and the parallel id list, passed as arguments; embeddings
are modelled as rational vectors so that squared L2 distances are exact.
faiss.IndexFlatL2 is modelled from its documented behaviour: an exact
nearest-neighbour index returning squared L2 distances in ascending
order. -/

namespace VectorStore

/-- Squared L2 distance between two vectors, the score of a
faiss.IndexFlatL2 index (no square root is taken by faiss). -/
def sqDist (u v : List ℚ) : ℚ := ((List.zipWith (fun a b => a - b) u v).map (fun x => x * x)).sum

/-- Ranking relation used by the index model: ascending squared distance,
ties kept in index order by stability of insertion sort. -/
def ascSnd (a b : ℕ × ℚ) : Prop := a.2 ≤ b.2

instance : DecidableRel ascSnd := fun a b => inferInstanceAs (Decidable (a.2 ≤ b.2))

/-- Model of idx.search(q, k) on a faiss.IndexFlatL2 holding the rows of
mat: the k candidate row indices with smallest squared L2 distance to q,
ascending, paired with their distances. -/
def faissSearch (mat : List (List ℚ)) (q : List ℚ) (k : ℕ) : List (ℕ × ℚ) :=
  (List.insertionSort ascSnd
    ((List.range mat.length).map (fun i => (i, sqDist (mat.getD i []) q)))).take k

/-- The result-collection loop of search: walk the ranked candidates,
skip invalid indices (i beyond the id list) and candidates rejected by
the filter, append survivors as (ids[i], distance), and stop once the
number of collected results reaches top_k. need is the number of results
still wanted, at least 1 on entry. -/
def collectResults (ids : List ℕ) (filter_fn : Option (ℕ → Bool)) :
    List (ℕ × ℚ) → ℕ → List (ℕ × ℚ)
  | [], _ => []
  | p :: rest, need =>
    if p.1 < ids.length then
      if (match filter_fn with | some f => f (ids.getD p.1 0) | none => true) then
        if need ≤ 1 then [(ids.getD p.1 0, p.2)]
        else (ids.getD p.1 0, p.2) :: collectResults ids filter_fn rest (need - 1)
      else collectResults ids filter_fn rest need
    else collectResults ids filter_fn rest need

/-- Model of vector_store.search. d is the dimension of the loaded index
(idx.d), mat its stored vectors, ids the parallel id list. Every failure
path of the Python function (invalid query, empty id list, dimension
mismatch, empty index) returns the empty list; the function never
raises. -/
def search (d : ℕ) (mat : List (List ℚ)) (ids : List ℕ) (query_emb : List ℚ)
    (top_k : ℕ) (filter_fn : Option (ℕ → Bool)) : List (ℕ × ℚ) :=
  if query_emb.length = 0 then []
  else if ids.isEmpty then []
  else if query_emb.length ≠ d then []
  else if min (top_k * 20) mat.length = 0 then []
  else collectResults ids filter_fn (faissSearch mat query_emb (min (top_k * 20) mat.length)) top_k

/-- Candidate acceptance test of the collection loop, as a predicate on a
ranked (row index, distance) pair: the row index must be inside the id
list and the id must pass the filter. -/
def passes (ids : List ℕ) (filter_fn : Option (ℕ → Bool)) (p : ℕ × ℚ) : Bool :=
  decide (p.1 < ids.length)
    && (match filter_fn with | some f => f (ids.getD p.1 0) | none => true)

/-- Number of indexed rows whose id passes the filter, the cardinality the
spec speaks about when it says at least top_k indexed items satisfy the
filter. -/
def passCount (mat : List (List ℚ)) (ids : List ℕ) (filter_fn : Option (ℕ → Bool)) : ℕ :=
  ((List.range mat.length).filter (fun i =>
    decide (i < ids.length)
      && (match filter_fn with | some f => f (ids.getD i 0) | none => true))).length

instance : IsTotal (ℕ × ℚ) ascSnd := ⟨fun a b => le_total a.2 b.2⟩

instance : IsTrans (ℕ × ℚ) ascSnd := ⟨fun _ _ _ h1 h2 => le_trans h1 h2⟩

end VectorStore

/-! ## Opportunity matcher (src/matcher/matcher.py)

The module-level globals OPPS and CITIES_BY_STATE (loaded from data
files at import time) are passed as arguments. Opportunity metadata
fields absent from the JSON dict are modelled as none; the deadline
string is modelled as an already parsed day ordinal (an integer), with
none covering both an absent and an empty deadline; timedelta(days=2)
becomes + 2. Latitudes and longitudes are reals because haversine is
transcendental. -/

namespace Matcher

/-- One opportunity record, with the metadata fields match_items reads. -/
structure Opp where
  type_ : Option String
  cost : Option ℚ
  state : Option String
  city : Option String
  latitude : Option ℝ
  longitude : Option ℝ
  deadline : Option ℤ
deriving Inhabited

/-- Python truthiness of an optional string: None and the empty string
are falsy. -/
def truthyS : Option String → Bool
  | none => false
  | some s => s ≠ ""

noncomputable section

open Real in
/-- Model of math.atan2(y, x), by the usual case split of the C
convention; atan2(0, 0) is 0. -/
def atan2 (y x : ℝ) : ℝ :=
  if 0 < x then arctan (y / x)
  else if x < 0 ∧ 0 ≤ y then arctan (y / x) + π
  else if x < 0 ∧ y < 0 then arctan (y / x) - π
  else if x = 0 ∧ 0 < y then π / 2
  else if x = 0 ∧ y < 0 then -(π / 2)
  else 0

open Real in
/-- Model of matcher.haversine: distance in miles between two lat/lon
points, Earth radius 3958.8 miles, math.radians x = x * pi / 180. -/
def haversine (lat1 lon1 lat2 lon2 : ℝ) : ℝ :=
  let R : ℝ := 3958.8
  let f1 := lat1 * π / 180
  let f2 := lat2 * π / 180
  let df := (lat2 - lat1) * π / 180
  let dl := (lon2 - lon1) * π / 180
  let a := sin (df / 2) ^ 2 + cos f1 * cos f2 * sin (dl / 2) ^ 2
  R * (2 * atan2 (Real.sqrt a) (Real.sqrt (1 - a)))

end

/-- Model of the initial_filter closure passed by match_items to search:
an index outside OPPS is rejected; with a truthy only_type only that type
passes; otherwise events are excluded and everything else passes. The
internal try/except is dead code in the model since nothing raises. -/
def initial_filter (opps : List Opp) (only_type : Option String) (idx : ℕ) : Bool :=
  if opps.length ≤ idx then false
  else
    let opp := opps.getD idx default
    if truthyS only_type then decide (opp.type_ = only_type)
    else if opp.type_ = some "event" then false
    else true

open Classical in
/-- One pass of the result loop of match_items over a single opportunity:
ok false means the loop filters it out (continue), ok true means it is
appended, error models the uncaught TypeError that Python raises when
location_scope is "cities", the opportunity has a truthy city and the
cities argument is None (membership test in None). cbs is the
CITIES_BY_STATE mapping with the .get(s, []) default. -/
noncomputable def oppPasses (cbs : String → List String) (max_cost : Option ℚ)
    (location_scope : String) (states cities : Option (List String))
    (center : Option (ℝ × ℝ)) (radius_miles : Option ℝ) (deadline_before : Option ℤ)
    (opp : Opp) : Except Unit Bool :=
  -- double-check event filtering
  if opp.type_ = some "event" then .ok false
  -- cost filter
  else if (match max_cost, opp.cost with
           | some mc, some c => decide (mc < c)
           | _, _ => false) then .ok false
  else
    -- geographic filter
    let geo : Except Unit Bool :=
      if location_scope = "noevent" then
        -- triple-check, unreachable after the double-check above
        if opp.type_ = some "event" then .ok false else .ok true
      else if location_scope = "nationwide" then .ok true
      else
        if ¬(truthyS opp.state || truthyS opp.city
              || (opp.latitude.isSome && opp.longitude.isSome)) then .ok true
        else if location_scope = "states" then
          match states with
          | none => .ok false
          | some sts =>
            if sts.isEmpty then .ok false
            else if (match opp.state with | some s => decide (s ∈ sts) | none => false) then
              .ok true
            else if sts.any (fun s =>
                match opp.city with | some c => decide (c ∈ cbs s) | none => false) then
              .ok true
            else .ok false
        else if location_scope = "cities" then
          if truthyS opp.city then
            match cities with
            | none => .error ()
            | some cs => if opp.city.getD "" ∈ cs then .ok true else .ok false
          else .ok true
        else if location_scope = "radius" then
          match opp.latitude, opp.longitude with
          | some lat, some lon =>
            match center, radius_miles with
            | some ctr, some r =>
              if haversine ctr.1 ctr.2 lat lon > r then .ok false else .ok true
            | _, _ => .ok false
          | _, _ => .ok true
        else if location_scope = "International" then
          if truthyS opp.state || truthyS opp.city then .ok false else .ok true
        else .ok true
    match geo with
    | .error e => .error e
    | .ok false => .ok false
    | .ok true =>
      -- deadline filter with the 2-day buffer
      if (match deadline_before, opp.deadline with
          | some db_, some dl => decide (dl < db_ + 2)
          | _, _ => false) then .ok false
      else .ok true

/-- The result loop of match_items over the raw search results: look the
opportunity up in OPPS, run the filter chain, keep the survivors paired
with their scores; the first uncaught exception aborts the whole call. -/
noncomputable def filterLoop (opps : List Opp) (cbs : String → List String)
    (max_cost : Option ℚ) (location_scope : String) (states cities : Option (List String))
    (center : Option (ℝ × ℝ)) (radius_miles : Option ℝ) (deadline_before : Option ℤ) :
    List (ℕ × ℚ) → Except Unit (List (Opp × ℚ))
  | [] => .ok []
  | (idx, score) :: rest =>
    match oppPasses cbs max_cost location_scope states cities center radius_miles
        deadline_before (opps.getD idx default) with
    | .error e => .error e
    | .ok keep =>
      match filterLoop opps cbs max_cost location_scope states cities center radius_miles
          deadline_before rest with
      | .error e => .error e
      | .ok tail => .ok (if keep then (opps.getD idx default, score) :: tail else tail)

/-- Ranking relation of the final sort of match_items:
results.sort(key score, reverse=True), descending score, stable. -/
def descSnd (a b : Opp × ℚ) : Prop := b.2 ≤ a.2

instance : DecidableRel descSnd := fun a b => inferInstanceAs (Decidable (b.2 ≤ a.2))

instance : IsTotal (Opp × ℚ) descSnd := ⟨fun a b => le_total b.2 a.2⟩

instance : IsTrans (Opp × ℚ) descSnd := ⟨fun _ _ _ h1 h2 => le_trans h2 h1⟩

/-- Model of matcher.match_items: search with top_k * 3 and the
initial_filter closure, run the filter loop over the raw results, sort
the survivors by score descending and return the first top_k
opportunities. -/
noncomputable def match_items (d : ℕ) (mat : List (List ℚ)) (ids : List ℕ)
    (opps : List Opp) (cbs : String → List String) (user_embedding : List ℚ) (top_k : ℕ)
    (only_type : Option String) (max_cost : Option ℚ) (location_scope : String)
    (states cities : Option (List String)) (center : Option (ℝ × ℝ))
    (radius_miles : Option ℝ) (deadline_before : Option ℤ) : Except Unit (List Opp) :=
  let raw := VectorStore.search d mat ids user_embedding (top_k * 3)
    (some (initial_filter opps only_type))
  match filterLoop opps cbs max_cost location_scope states cities center radius_miles
      deadline_before raw with
  | .error e => .error e
  | .ok results =>
    .ok (((List.insertionSort descSnd results).take top_k).map Prod.fst)

end Matcher

/-! ## Batch profile adaptation (src/profiles/enhanced_profiles.py)

The database is abstracted: the per-user query results of
update_user_embedding_enhanced (the profile row and the recent feedback
rows, most recent first) are passed in directly, and the user list of
batch_update_profiles is the already-limited query result. Storage
failures are outside the pure model, so the Except layer that the Python
code wraps around each user only ever sees ok values; this is faithful
for the inputs the claims are about, because update_embedding catches
every computational error internally. -/

namespace Profiles

/-- One row of the user_feedback table, the fields the updater reads. -/
structure UserFeedback where
  item_embedding : Option (List ℝ)
  confidence : Option ℝ
  feedback_type : String

/-- One row of the user_profiles table, the field the updater reads. -/
structure UserProfile where
  embedding : Option (List ℝ)

/-- Model of update_user_embedding_enhanced for one user: no profile, no
embedding, an empty embedding, no feedback or no usable feedback item is
a silent no-op (ok none); otherwise the enhanced Rocchio update runs with
alpha 0.8, beta 0.2, gamma 0.1 and the result is stored (ok (some v)).
The value stored is returned; errors would be re-raised, but no
computational path raises because update_embedding fails closed. -/
noncomputable def update_user_embedding_enhanced (profile : Option UserProfile)
    (feedbacks : List UserFeedback) : Except Unit (Option (List ℝ)) :=
  match profile with
  | none => .ok none
  | some p =>
    match p.embedding with
    | none => .ok none
    | some emb =>
      if emb.length = 0 then .ok none
      else if feedbacks.isEmpty then .ok none
      else
        let feedback_items : List Rocchio.FeedbackItem := feedbacks.filterMap (fun f =>
          match f.item_embedding with
          | none => none
          | some e =>
            if e.length = 0 then none
            else some (some e, f.confidence.getD 1, f.feedback_type))
        if feedback_items.isEmpty then .ok none
        else .ok (some (Rocchio.update_embedding 0.8 0.2 0.1 emb feedback_items))

/-- The statistics dictionary returned by batch_update_profiles. -/
structure BatchStats where
  total_users : ℕ
  updated_count : ℕ
  error_count : ℕ
deriving DecidableEq

/-- The counting loop of batch_update_profiles: each user is attempted
inside its own try/except, a raise increments error_count and the loop
continues with the next user, a normal return increments updated_count. -/
noncomputable def batchLoop (users : List (Option UserProfile × List UserFeedback)) :
    ℕ × ℕ :=
  match users with
  | [] => (0, 0)
  | u :: rest =>
    let tail := batchLoop rest
    match update_user_embedding_enhanced u.1 u.2 with
    | .ok _ => (tail.1 + 1, tail.2)
    | .error _ => (tail.1, tail.2 + 1)

/-- Model of batch_update_profiles: at most max_users users (the limit of
the user query) are processed independently; the returned stats hold the
user total and the per-user success and failure counts. -/
noncomputable def batch_update_profiles
    (users : List (Option UserProfile × List UserFeedback)) (max_users : ℕ) : BatchStats :=
  let selected := users.take max_users
  let counts := batchLoop selected
  { total_users := selected.length, updated_count := counts.1, error_count := counts.2 }

/-- Concrete five-user batch for the batch-independence scenario: user 0
has a feedback row whose item embedding has the wrong length (3, against
a profile of dimension 2); the other four users have well-formed rows. -/
noncomputable def scenarioUsers : List (Option UserProfile × List UserFeedback) :=
  (some ⟨some [1, 0]⟩, [⟨some [1, 2, 3], some 1, "like"⟩])
    :: List.replicate 4 (some ⟨some [1, 0]⟩, [⟨some [0, 1], some 1, "like"⟩])

end Profiles

end IntelligenceLayer

/-! ## Lemmas about the vector primitives -/

namespace IntelligenceLayer

namespace Rocchio

theorem dot_nil_left (v : List ℝ) : dot [] v = 0 := rfl

theorem dot_nil_right (u : List ℝ) : dot u [] = 0 := by cases u <;> rfl

theorem dot_cons (a b : ℝ) (u v : List ℝ) : dot (a :: u) (b :: v) = a * b + dot u v := by
  simp [dot]

theorem dot_comm (u v : List ℝ) : dot u v = dot v u := by
  induction u generalizing v with
  | nil => cases v <;> simp [dot]
  | cons a u ih =>
    cases v with
    | nil => simp [dot]
    | cons b v => simp [dot_cons, ih, mul_comm]

theorem dot_smul_left (c : ℝ) (u v : List ℝ) : dot (smul c u) v = c * dot u v := by
  induction u generalizing v with
  | nil => simp [dot, smul]
  | cons a u ih =>
    cases v with
    | nil => simp [dot_nil_right, smul]
    | cons b v =>
      simp only [smul, List.map_cons, dot_cons] at *
      rw [ih]; ring

theorem dot_smul_right (c : ℝ) (u v : List ℝ) : dot u (smul c v) = c * dot u v := by
  rw [dot_comm, dot_smul_left, dot_comm]

theorem dot_vdiv_left (u v : List ℝ) (s : ℝ) : dot (vdiv u s) v = dot u v / s := by
  induction u generalizing v with
  | nil => simp [dot, vdiv]
  | cons a u ih =>
    cases v with
    | nil => simp [dot_nil_right, vdiv]
    | cons b v =>
      simp only [vdiv, List.map_cons, dot_cons] at *
      rw [ih]; ring

theorem dot_vadd_left (u w v : List ℝ) (h : u.length = w.length) :
    dot (vadd u w) v = dot u v + dot w v := by
  induction u generalizing w v with
  | nil =>
    cases w with
    | nil => simp [dot, vadd]
    | cons b w => simp at h
  | cons a u ih =>
    cases w with
    | nil => simp at h
    | cons b w =>
      cases v with
      | nil => simp [dot_nil_right, vadd]
      | cons c v =>
        simp only [List.length_cons, Nat.succ_inj] at h
        simp only [vadd, List.zipWith_cons_cons, dot_cons] at *
        rw [ih w v h]
        ring

theorem dot_vadd_right (v u w : List ℝ) (h : u.length = w.length) :
    dot v (vadd u w) = dot v u + dot v w := by
  rw [dot_comm, dot_vadd_left u w v h, dot_comm u v, dot_comm w v]

theorem length_smul (c : ℝ) (v : List ℝ) : (smul c v).length = v.length := by
  simp [smul]

theorem length_vdiv (v : List ℝ) (s : ℝ) : (vdiv v s).length = v.length := by
  simp [vdiv]

theorem length_vadd (u v : List ℝ) : (vadd u v).length = min u.length v.length := by
  simp [vadd]

theorem norm2_nonneg (v : List ℝ) : 0 ≤ norm2 v := by
  induction v with
  | nil => simp [norm2, dot]
  | cons a v ih =>
    have h := dot_cons a a v v
    rw [norm2] at *
    nlinarith [sq_nonneg a]

theorem norm2_eq_zero_iff (v : List ℝ) : norm2 v = 0 ↔ v = List.replicate v.length 0 := by
  induction v with
  | nil => simp [norm2, dot]
  | cons a v ih =>
    rw [norm2, dot_cons, List.length_cons, List.replicate_succ]
    constructor
    · intro h
      have hv : 0 ≤ dot v v := norm2_nonneg v
      have ha : a * a = 0 := le_antisymm (by linarith [sq_nonneg a]) (by nlinarith)
      have ha0 : a = 0 := mul_self_eq_zero.mp ha
      have hv0 : norm2 v = 0 := by rw [norm2]; linarith
      rw [ha0]
      exact congrArg (List.cons 0) (ih.mp hv0)
    · intro h
      rw [List.cons_eq_cons] at h
      obtain ⟨ha, hv⟩ := h
      have hv0 : dot v v = 0 := ih.mpr hv
      rw [ha, hv0]
      ring

theorem norm2_pos (v : List ℝ) (h : v ≠ List.replicate v.length 0) : 0 < norm2 v := by
  rcases lt_or_eq_of_le (norm2_nonneg v) with h1 | h1
  · exact h1
  · exact absurd ((norm2_eq_zero_iff v).mp h1.symm) h

theorem nrm_pos (v : List ℝ) (h : v ≠ List.replicate v.length 0) : 0 < nrm v :=
  Real.sqrt_pos.mpr (norm2_pos v h)

theorem norm2_vdiv (v : List ℝ) (s : ℝ) : norm2 (vdiv v s) = norm2 v / s ^ 2 := by
  rw [norm2, norm2, dot_vdiv_left, dot_comm, dot_vdiv_left, dot_comm]
  ring

theorem nrm_vdiv_nrm (v : List ℝ) (h : norm2 v ≠ 0) : nrm (vdiv v (nrm v)) = 1 := by
  rw [nrm, norm2_vdiv, nrm, Real.sq_sqrt (norm2_nonneg v), div_self h, Real.sqrt_one]

theorem smul_one (v : List ℝ) : smul 1 v = v := by simp [smul]

theorem vdiv_one (v : List ℝ) : vdiv v 1 = v := by simp [vdiv]

theorem smul_replicate_zero (c : ℝ) (n : ℕ) :
    smul c (List.replicate n 0) = List.replicate n 0 := by
  simp [smul]

theorem vadd_replicate_zero_right (v : List ℝ) : vadd v (List.replicate v.length 0) = v := by
  induction v with
  | nil => rfl
  | cons a v ih => simp [vadd, List.replicate_succ] at *; exact ih

theorem zipWith_sub_replicate_zero (v : List ℝ) (n : ℕ) (h : v.length = n) :
    List.zipWith (fun x y => x - y) v (List.replicate n 0) = v := by
  induction v generalizing n with
  | nil => simp
  | cons a v ih =>
    cases n with
    | zero => simp at h
    | succ m =>
      simp only [List.length_cons, Nat.succ_inj] at h
      simp [List.replicate_succ, ih m h]

theorem norm2_vadd_expand (u w : List ℝ) (h : u.length = w.length) :
    norm2 (vadd u w) = norm2 u + 2 * dot u w + norm2 w := by
  rw [norm2, dot_vadd_left u w _ h, dot_vadd_right u u w h, dot_vadd_right w u w h,
    norm2, norm2, dot_comm w u]
  ring

theorem smul_zero_eq_replicate (v : List ℝ) : smul 0 v = List.replicate v.length 0 := by
  induction v with
  | nil => rfl
  | cons a v ih => simp [smul, List.replicate_succ] at *

theorem eq_smul_of_vadd_neg_smul_eq_zero (b v : List ℝ) (c : ℝ) (h : b.length = v.length)
    (hz : vadd b (smul (-c) v) = List.replicate b.length 0) : b = smul c v := by
  induction b generalizing v with
  | nil =>
    cases v with
    | nil => rfl
    | cons y v => simp at h
  | cons x b ih =>
    cases v with
    | nil => simp at h
    | cons y v =>
      simp only [List.length_cons, Nat.succ_inj] at h
      simp only [smul, List.map_cons, vadd, List.zipWith_cons_cons, List.length_cons,
        List.replicate_succ, List.cons_eq_cons] at hz ⊢
      obtain ⟨h1, h2⟩ := hz
      refine ⟨by linarith, ?_⟩
      exact ih v h h2

/-- Strict Cauchy-Schwarz for the list dot product: when b is not a scalar
multiple of v (and v is not zero), the inner product is strictly dominated. -/
theorem inner_sq_lt (b v : List ℝ) (h : b.length = v.length)
    (hv : v ≠ List.replicate v.length 0) (hind : ∀ c : ℝ, b ≠ smul c v) :
    dot b v ^ 2 < norm2 b * norm2 v := by
  have hY : 0 < norm2 v := norm2_pos v hv
  set S := dot b v with hS
  set Y := norm2 v with hYdef
  set c := S / Y with hc
  have hrlen : b.length = (smul (-c) v).length := by rw [length_smul]; exact h
  have hrne : vadd b (smul (-c) v) ≠ List.replicate b.length 0 := by
    intro hz
    exact hind c (eq_smul_of_vadd_neg_smul_eq_zero b v c h hz)
  have hrlen2 : (vadd b (smul (-c) v)).length = b.length := by
    rw [length_vadd, length_smul, ← h, Nat.min_self]
  have hrpos : 0 < norm2 (vadd b (smul (-c) v)) := by
    apply norm2_pos
    rw [hrlen2]
    exact hrne
  have hexp : norm2 (vadd b (smul (-c) v)) = norm2 b - 2 * c * S + c ^ 2 * Y := by
    rw [norm2_vadd_expand b (smul (-c) v) hrlen, dot_smul_right]
    have h2 : norm2 (smul (-c) v) = c ^ 2 * Y := by
      rw [norm2, dot_smul_left, dot_smul_right, hYdef, norm2]
      ring
    rw [h2, ← hS]
    ring
  rw [hexp] at hrpos
  have hcY : c * Y = S := by rw [hc]; field_simp
  have h1 : norm2 b - 2 * c * S + c ^ 2 * Y = norm2 b - c * S := by
    have : c ^ 2 * Y = c * (c * Y) := by ring
    rw [this, hcY]; ring
  rw [h1] at hrpos
  have h2 : c * S = S ^ 2 / Y := by rw [hc]; field_simp; ring
  rw [h2] at hrpos
  have := mul_pos hrpos hY
  have h3 : (norm2 b - S ^ 2 / Y) * Y = norm2 b * Y - S ^ 2 := by
    field_simp
  nlinarith

/-- Computation of the Rocchio combination for a single full-confidence
"like" item of matching dimension: the centroid division and the zero
negative centroid cancel, leaving alpha * base + beta * v. -/
theorem rocchioRaw_single_like (alpha beta gamma : ℝ) (b v : List ℝ) (h : b.length = v.length) :
    rocchioRaw alpha beta gamma b [(some v, 1, "like")]
      = .ok (vadd (smul alpha b) (smul beta v)) := by
  have hc : classify [((some v : Option (List ℝ)), (1 : ℝ), "like")] = ([(v, 1)], []) := by
    simp [classify]
  have hstack : stack [v] = .ok [v] := by simp [stack]
  have hws : weightedSum [v] [1] = v := by
    simp only [weightedSum, List.zipWith_cons_cons, List.zipWith_nil_right, List.foldr_cons,
      List.foldr_nil, List.headD_cons, smul_one]
    exact vadd_replicate_zero_right v
  have hpc : centroidOf b [(v, (1 : ℝ))] = .ok v := by
    simp only [centroidOf, List.isEmpty_cons, Bool.false_eq_true, if_false, List.map_cons,
      List.map_nil, hstack, hws, List.sum_cons, List.sum_nil, add_zero, vdiv_one]
  have hnc : centroidOf b ([] : List (List ℝ × ℝ)) = .ok (List.replicate b.length 0) := by
    simp [centroidOf]
  have hlen1 : (smul alpha b).length = (smul beta v).length := by
    rw [length_smul, length_smul, h]
  have hadd : add1 (smul alpha b) (smul beta v) = .ok (vadd (smul alpha b) (smul beta v)) := by
    unfold add1
    rw [if_pos hlen1]
    rfl
  have hlen2 : (vadd (smul alpha b) (smul beta v)).length = b.length := by
    rw [length_vadd, length_smul, length_smul, ← h, Nat.min_self]
  have hsub : sub1 (vadd (smul alpha b) (smul beta v)) (smul gamma (List.replicate b.length 0))
      = .ok (vadd (smul alpha b) (smul beta v)) := by
    rw [smul_replicate_zero]
    unfold sub1
    rw [if_pos (by rw [hlen2, List.length_replicate])]
    rw [zipWith_sub_replicate_zero _ b.length hlen2]
  rw [rocchioRaw, hc]
  simp only [hpc, hnc, hadd, hsub]

/-- Scalar core of the monotone-pull inequality: with X = norm2 b,
Y = norm2 v, S = dot b v, A = dot w v and W = norm2 w for
w = 0.8 b + 0.2 v, strict Cauchy-Schwarz forces the cosine against v to
increase strictly. -/
theorem cos_key (X Y S A W : ℝ) (hX : 0 < X) (hY : 0 < Y) (hW : 0 < W)
    (hA : A = 0.8 * S + 0.2 * Y) (hWe : W = 0.64 * X + 0.32 * S + 0.04 * Y)
    (hCS : S ^ 2 < X * Y) :
    S / (Real.sqrt X * Real.sqrt Y) < A / (Real.sqrt W * Real.sqrt Y) := by
  have hsX : 0 < Real.sqrt X := Real.sqrt_pos.mpr hX
  have hsY : 0 < Real.sqrt Y := Real.sqrt_pos.mpr hY
  have hsW : 0 < Real.sqrt W := Real.sqrt_pos.mpr hW
  have hXX : Real.sqrt X ^ 2 = X := Real.sq_sqrt hX.le
  have hWW : Real.sqrt W ^ 2 = W := Real.sq_sqrt hW.le
  have hkey : S * Real.sqrt W < A * Real.sqrt X := by
    have hfac : A ^ 2 * X - S ^ 2 * W = (0.32 * S + 0.04 * Y) * (X * Y - S ^ 2) := by
      rw [hA, hWe]; ring
    rcases le_or_lt A 0 with hA0 | hA0
    · -- A ≤ 0 forces S well below zero and the squares to flip
      have hSneg : S ≤ -(0.25 * Y) := by nlinarith
      have hfneg : 0.32 * S + 0.04 * Y < 0 := by nlinarith
      have hsq : (A * Real.sqrt X) ^ 2 < (S * Real.sqrt W) ^ 2 := by
        have h1 : (A * Real.sqrt X) ^ 2 = A ^ 2 * X := by rw [mul_pow, hXX]
        have h2 : (S * Real.sqrt W) ^ 2 = S ^ 2 * W := by rw [mul_pow, hWW]
        rw [h1, h2]
        nlinarith
      have hSneg0 : S < 0 := by nlinarith
      have h3 : -(A * Real.sqrt X) < -(S * Real.sqrt W) := by
        apply lt_of_pow_lt_pow_left 2 (by nlinarith)
        calc (-(A * Real.sqrt X)) ^ 2 = (A * Real.sqrt X) ^ 2 := by ring
          _ < (S * Real.sqrt W) ^ 2 := hsq
          _ = (-(S * Real.sqrt W)) ^ 2 := by ring
      linarith
    · rcases le_or_lt S 0 with hS0 | hS0
      · have h1 : S * Real.sqrt W ≤ 0 := mul_nonpos_of_nonpos_of_nonneg hS0 hsW.le
        have h2 : 0 < A * Real.sqrt X := mul_pos hA0 hsX
        linarith
      · have hsq : (S * Real.sqrt W) ^ 2 < (A * Real.sqrt X) ^ 2 := by
          have h1 : (A * Real.sqrt X) ^ 2 = A ^ 2 * X := by rw [mul_pow, hXX]
          have h2 : (S * Real.sqrt W) ^ 2 = S ^ 2 * W := by rw [mul_pow, hWW]
          rw [h1, h2]
          nlinarith
        apply lt_of_pow_lt_pow_left 2 (by positivity) hsq
  rw [div_lt_div_iff (by positivity) (by positivity)]
  calc S * (Real.sqrt W * Real.sqrt Y) = S * Real.sqrt W * Real.sqrt Y := by ring
    _ < A * Real.sqrt X * Real.sqrt Y := by
        exact mul_lt_mul_of_pos_right hkey hsY
    _ = A * (Real.sqrt X * Real.sqrt Y) := by ring

theorem update_embedding_ok (alpha beta gamma : ℝ) (orig : List ℝ) (items : List FeedbackItem)
    (w : List ℝ) (h : rocchioRaw alpha beta gamma orig items = .ok w) :
    update_embedding alpha beta gamma orig items = if nrm w > 0 then vdiv w (nrm w) else w := by
  unfold update_embedding
  rw [h]

theorem update_embedding_err (alpha beta gamma : ℝ) (orig : List ℝ)
    (items : List FeedbackItem) (h : rocchioRaw alpha beta gamma orig items = .error ()) :
    update_embedding alpha beta gamma orig items = orig := by
  unfold update_embedding
  rw [h]

theorem W_pos_of_CS (X Y S : ℝ) (hX : 0 < X) (hY : 0 < Y) (hCS : S ^ 2 < X * Y) :
    0 < 0.64 * X + 0.32 * S + 0.04 * Y := by
  by_contra hc
  push_neg at hc
  have h1 : 0.64 * X + 0.04 * Y ≤ 0.32 * (-S) := by linarith
  have h2 : 0.1024 * (X * Y) ≤ (0.64 * X + 0.04 * Y) ^ 2 := by
    nlinarith [sq_nonneg (0.64 * X - 0.04 * Y)]
  nlinarith [mul_pos hX hY]

end Rocchio

end IntelligenceLayer

/-! ## Claim theorems for the Rocchio updater -/

namespace IntelligenceLayer

open Rocchio

/-- C2 counterexample: with base and liked vector both equal to the unit
vector of dimension one (both non-zero), the update returns the base
itself and the cosine similarity stays at 1, so the strict inequality of
the claim fails. -/
theorem C2_counterexample :
    ([(1 : ℝ)] ≠ List.replicate 1 (0 : ℝ))
    ∧ ¬ cosineSim [(1 : ℝ)] [(1 : ℝ)]
        < cosineSim (update_embedding 0.8 0.2 0.1 [(1 : ℝ)] [(some [1], 1, "like")]) [(1 : ℝ)] := by
  constructor
  · simp
  · have hraw := rocchioRaw_single_like 0.8 0.2 0.1 [(1 : ℝ)] [(1 : ℝ)] rfl
    have hw : vadd (smul 0.8 [(1 : ℝ)]) (smul 0.2 [(1 : ℝ)]) = [(1 : ℝ)] := by
      norm_num [vadd, smul]
    rw [hw] at hraw
    have hn : nrm [(1 : ℝ)] = 1 := by
      norm_num [nrm, norm2, dot]
    have hupd : update_embedding 0.8 0.2 0.1 [(1 : ℝ)] [(some [1], 1, "like")] = [(1 : ℝ)] := by
      rw [update_embedding_ok 0.8 0.2 0.1 [(1 : ℝ)] [(some [1], 1, "like")] [(1 : ℝ)] hraw, hn]
      norm_num [vdiv]
    rw [hupd]
    exact lt_irrefl _

/-- C2 (amended): for vectors of equal dimension with v non-zero and base
not a scalar multiple of v, a single positive full-confidence feedback v
strictly increases the cosine similarity with v. (As stated the claim
fails when base is a scalar multiple of v, e.g. base = v.) -/
theorem C2_monotone_pull (b v : List ℝ) (hlen : b.length = v.length)
    (hv : v ≠ List.replicate v.length 0) (hind : ∀ c : ℝ, b ≠ smul c v) :
    cosineSim b v < cosineSim (update_embedding 0.8 0.2 0.1 b [(some v, 1, "like")]) v := by
  have hb : b ≠ List.replicate b.length 0 := by
    intro hb0
    exact hind 0 (by rw [smul_zero_eq_replicate, ← hlen]; exact hb0)
  have hX : 0 < norm2 b := norm2_pos b hb
  have hY : 0 < norm2 v := norm2_pos v hv
  have hCS : dot b v ^ 2 < norm2 b * norm2 v := inner_sq_lt b v hlen hv hind
  have hlen1 : (smul (0.8 : ℝ) b).length = (smul (0.2 : ℝ) v).length := by
    rw [length_smul, length_smul, hlen]
  have hraw := rocchioRaw_single_like 0.8 0.2 0.1 b v hlen
  have hA : dot (vadd (smul 0.8 b) (smul 0.2 v)) v
      = 0.8 * dot b v + 0.2 * norm2 v := by
    rw [dot_vadd_left _ _ _ hlen1, dot_smul_left, dot_smul_left, norm2]
  have hW : norm2 (vadd (smul 0.8 b) (smul 0.2 v))
      = 0.64 * norm2 b + 0.32 * dot b v + 0.04 * norm2 v := by
    rw [norm2_vadd_expand _ _ hlen1, dot_smul_left, dot_smul_right]
    have h1 : norm2 (smul (0.8 : ℝ) b) = 0.64 * norm2 b := by
      rw [norm2, dot_smul_left, dot_smul_right, norm2]; ring
    have h2 : norm2 (smul (0.2 : ℝ) v) = 0.04 * norm2 v := by
      rw [norm2, dot_smul_left, dot_smul_right, norm2]; ring
    rw [h1, h2]; ring
  have hWpos : 0 < norm2 (vadd (smul 0.8 b) (smul 0.2 v)) := by
    rw [hW]
    exact W_pos_of_CS _ _ _ hX hY hCS
  have hupd : update_embedding 0.8 0.2 0.1 b [(some v, 1, "like")]
      = vdiv (vadd (smul 0.8 b) (smul 0.2 v)) (nrm (vadd (smul 0.8 b) (smul 0.2 v))) := by
    rw [update_embedding_ok 0.8 0.2 0.1 b [(some v, 1, "like")] _ hraw]
    rw [if_pos (show nrm (vadd (smul 0.8 b) (smul 0.2 v)) > 0
      from Real.sqrt_pos.mpr hWpos)]
  rw [hupd]
  have hcos : cosineSim (vdiv (vadd (smul 0.8 b) (smul 0.2 v))
        (nrm (vadd (smul 0.8 b) (smul 0.2 v)))) v
      = dot (vadd (smul 0.8 b) (smul 0.2 v)) v
          / (Real.sqrt (norm2 (vadd (smul 0.8 b) (smul 0.2 v))) * Real.sqrt (norm2 v)) := by
    rw [cosineSim, dot_vdiv_left, nrm_vdiv_nrm _ (ne_of_gt hWpos), one_mul, div_div]
    rfl
  rw [hcos, hA, hW]
  have hcosb : cosineSim b v = dot b v / (Real.sqrt (norm2 b) * Real.sqrt (norm2 v)) := by
    rw [cosineSim, nrm, nrm]
  rw [hcosb]
  exact cos_key (norm2 b) (norm2 v) (dot b v) _ _ hX hY
    (by rw [← hW]; exact hWpos) rfl rfl hCS

/-- C2 witness: the amended theorem applied to the concrete independent
pair base [1, 0] and v [0, 1]. -/
theorem C2_monotone_pull_witness :
    cosineSim [(1 : ℝ), 0] [(0 : ℝ), 1]
      < cosineSim (update_embedding 0.8 0.2 0.1 [(1 : ℝ), 0] [(some [0, 1], 1, "like")])
          [(0 : ℝ), 1] := by
  apply C2_monotone_pull [(1 : ℝ), 0] [(0 : ℝ), 1] rfl
  · simp
  · intro c hc
    simp [smul, List.cons_eq_cons] at hc

/-- C1: for base [1,0,0], positive feedback [0,1,0] and negative feedback
[0,0,1], both at confidence 1, with alpha 0.8, beta 0.2, gamma 0.1, the
raw Rocchio combination is exactly [0.8, 0.2, -0.1] and each component of
the returned normalized vector is within 1/1000 of the quoted
[0.964, 0.241, -0.120]. -/
theorem C1_scenario :
    rocchioRaw 0.8 0.2 0.1 [(1 : ℝ), 0, 0]
        [(some [0, 1, 0], 1, "like"), (some [0, 0, 1], 1, "skip")] = .ok [0.8, 0.2, -0.1]
    ∧ |(update_embedding 0.8 0.2 0.1 [(1 : ℝ), 0, 0]
        [(some [0, 1, 0], 1, "like"), (some [0, 0, 1], 1, "skip")]).getD 0 0 - 0.964| < 1 / 1000
    ∧ |(update_embedding 0.8 0.2 0.1 [(1 : ℝ), 0, 0]
        [(some [0, 1, 0], 1, "like"), (some [0, 0, 1], 1, "skip")]).getD 1 0 - 0.241| < 1 / 1000
    ∧ |(update_embedding 0.8 0.2 0.1 [(1 : ℝ), 0, 0]
        [(some [0, 1, 0], 1, "like"), (some [0, 0, 1], 1, "skip")]).getD 2 0 - (-0.120)|
        < 1 / 1000 := by
  have hraw : rocchioRaw 0.8 0.2 0.1 [(1 : ℝ), 0, 0]
      [(some [0, 1, 0], 1, "like"), (some [0, 0, 1], 1, "skip")] = .ok [0.8, 0.2, -0.1] := by
    have hc : classify [((some [0, 1, 0] : Option (List ℝ)), (1 : ℝ), "like"),
        (some [0, 0, 1], 1, "skip")] = ([([0, 1, 0], 1)], [([0, 0, 1], 1)]) := by
      simp [classify]
    rw [rocchioRaw, hc]
    norm_num [centroidOf, stack, weightedSum, vadd, smul, vdiv, add1, sub1, List.replicate]
  have hn2 : norm2 [(0.8 : ℝ), 0.2, -0.1] = 0.69 := by
    norm_num [norm2, dot]
  have hnrm : nrm [(0.8 : ℝ), 0.2, -0.1] = Real.sqrt 0.69 := by rw [nrm, hn2]
  have hupd : update_embedding 0.8 0.2 0.1 [(1 : ℝ), 0, 0]
      [(some [0, 1, 0], 1, "like"), (some [0, 0, 1], 1, "skip")]
      = vdiv [(0.8 : ℝ), 0.2, -0.1] (Real.sqrt 0.69) := by
    rw [update_embedding_ok 0.8 0.2 0.1 _ _ _ hraw, hnrm,
      if_pos (Real.sqrt_pos.mpr (by norm_num))]
  have hs1 : (0.8306 : ℝ) < Real.sqrt 0.69 := (Real.lt_sqrt (by norm_num)).mpr (by norm_num)
  have hs2 : Real.sqrt 0.69 < 0.8307 := (Real.sqrt_lt' (by norm_num)).mpr (by norm_num)
  have hspos : (0 : ℝ) < Real.sqrt 0.69 := by linarith
  refine ⟨hraw, ?_, ?_, ?_⟩
  · rw [hupd]
    have hu : (0.8 : ℝ) / Real.sqrt 0.69 < 0.965 := (div_lt_iff hspos).mpr (by nlinarith)
    have hl : (0.963 : ℝ) < 0.8 / Real.sqrt 0.69 := (lt_div_iff hspos).mpr (by nlinarith)
    simp only [vdiv, List.map_cons, List.getD_cons_zero]
    rw [abs_sub_lt_iff]
    constructor <;> nlinarith
  · rw [hupd]
    have hu : (0.2 : ℝ) / Real.sqrt 0.69 < 0.2415 := (div_lt_iff hspos).mpr (by nlinarith)
    have hl : (0.2405 : ℝ) < 0.2 / Real.sqrt 0.69 := (lt_div_iff hspos).mpr (by nlinarith)
    simp only [vdiv, List.map_cons, List.getD_cons_succ, List.getD_cons_zero]
    rw [abs_sub_lt_iff]
    constructor <;> nlinarith
  · rw [hupd]
    have hu : (0.1 : ℝ) / Real.sqrt 0.69 < 0.1204 := (div_lt_iff hspos).mpr (by nlinarith)
    have hl : (0.1203 : ℝ) < 0.1 / Real.sqrt 0.69 := (lt_div_iff hspos).mpr (by nlinarith)
    have hneg : (-0.1 : ℝ) / Real.sqrt 0.69 = -(0.1 / Real.sqrt 0.69) := by ring
    simp only [vdiv, List.map_cons, List.getD_cons_succ, List.getD_cons_zero]
    rw [hneg, abs_sub_lt_iff]
    constructor <;> nlinarith

/-- C3 counterexample: a zero-norm raw combination with a non-zero base
and non-empty feedback (the feedback contributions exactly cancel the
base), refuting the claim that the degenerate case occurs only when the
base is the zero vector and the feedback list is empty; the un-normalized
zero vector is returned. -/
theorem C3_counterexample :
    nrm (update_embedding 0.8 0.2 0.1 [(1 : ℝ), 0, 0]
        [(some [1, 0, 0], 1, "like"), (some [10, 0, 0], 1, "skip")]) = 0
    ∧ [(1 : ℝ), 0, 0] ≠ List.replicate 3 (0 : ℝ)
    ∧ ([(some [(1 : ℝ), 0, 0], (1 : ℝ), "like"), (some [10, 0, 0], 1, "skip")]
        : List FeedbackItem) ≠ [] := by
  refine ⟨?_, by simp, by simp⟩
  have hraw : rocchioRaw 0.8 0.2 0.1 [(1 : ℝ), 0, 0]
      [(some [1, 0, 0], 1, "like"), (some [10, 0, 0], 1, "skip")] = .ok [0, 0, 0] := by
    have hc : classify [((some [1, 0, 0] : Option (List ℝ)), (1 : ℝ), "like"),
        (some [10, 0, 0], 1, "skip")] = ([([1, 0, 0], 1)], [([10, 0, 0], 1)]) := by
      simp [classify]
    rw [rocchioRaw, hc]
    norm_num [centroidOf, stack, weightedSum, vadd, smul, vdiv, add1, sub1, List.replicate]
  have h0 : nrm [(0 : ℝ), 0, 0] = 0 := by
    norm_num [nrm, norm2, dot]
  rw [update_embedding_ok 0.8 0.2 0.1 _ _ _ hraw, if_neg (by rw [h0]; exact lt_irrefl 0), h0]

/-- C3 (amended): whenever the Rocchio combination succeeds, the returned
vector has unit norm if the raw combination is a non-zero vector, and the
un-normalized raw vector is returned when its norm is exactly zero; the
zero-norm case is not limited to a zero base with empty feedback (see the
counterexample). -/
theorem C3_normalization (alpha beta gamma : ℝ) (b : List ℝ) (items : List FeedbackItem)
    (w : List ℝ) (h : rocchioRaw alpha beta gamma b items = .ok w) :
    (w ≠ List.replicate w.length 0 → nrm (update_embedding alpha beta gamma b items) = 1)
    ∧ (nrm w = 0 → update_embedding alpha beta gamma b items = w) := by
  rw [update_embedding_ok alpha beta gamma b items w h]
  constructor
  · intro hw
    rw [if_pos (nrm_pos w hw)]
    exact nrm_vdiv_nrm w (ne_of_gt (norm2_pos w hw))
  · intro h0
    rw [if_neg (by rw [h0]; exact lt_irrefl 0)]

/-- C3 witness: the amended theorem applied to base [2] with no feedback,
whose raw combination is the non-zero vector [1.6]. -/
theorem C3_normalization_witness :
    nrm (update_embedding 0.8 0.2 0.1 [(2 : ℝ)] []) = 1 := by
  have hraw : rocchioRaw 0.8 0.2 0.1 [(2 : ℝ)] [] = .ok [(1.6 : ℝ)] := by
    norm_num [rocchioRaw, classify, centroidOf, stack, weightedSum, vadd, smul, vdiv,
      add1, sub1, List.replicate]
  exact (C3_normalization 0.8 0.2 0.1 [(2 : ℝ)] [] [(1.6 : ℝ)] hraw).1 (by norm_num)

/-- C4: whenever the Rocchio computation raises internally, the public
update_embedding returns the base embedding unchanged. -/
theorem C4_fail_closed (alpha beta gamma : ℝ) (orig : List ℝ) (items : List FeedbackItem)
    (h : rocchioRaw alpha beta gamma orig items = .error ()) :
    update_embedding alpha beta gamma orig items = orig :=
  update_embedding_err alpha beta gamma orig items h

/-- C4 witness: two positive feedback vectors of different lengths make
np.array raise, and the base [1, 0] comes back unchanged. -/
theorem C4_fail_closed_witness :
    rocchioRaw 0.8 0.2 0.1 [(1 : ℝ), 0]
      [(some [1, 0], 1, "like"), (some [1], 1, "like")] = .error ()
    ∧ update_embedding 0.8 0.2 0.1 [(1 : ℝ), 0]
      [(some [1, 0], 1, "like"), (some [1], 1, "like")] = [(1 : ℝ), 0] := by
  have herr : rocchioRaw 0.8 0.2 0.1 [(1 : ℝ), 0]
      [(some [1, 0], 1, "like"), (some [1], 1, "like")] = .error () := by
    have hc : classify [((some [1, 0] : Option (List ℝ)), (1 : ℝ), "like"),
        (some [1], 1, "like")] = ([([1, 0], 1), ([1], 1)], []) := by
      simp [classify]
    rw [rocchioRaw, hc]
    norm_num [centroidOf, stack]
  exact ⟨herr, C4_fail_closed 0.8 0.2 0.1 [(1 : ℝ), 0]
    [(some [1, 0], 1, "like"), (some [1], 1, "like")] herr⟩

/-- C5 (evaluation at the failing input): numpy length-1 broadcasting lets
one dimension-3 "like" vector silently reshape a dimension-1 base, so the
returned vector has length 3, not the base length 1, and the mismatched
feedback vector is not rejected. -/
theorem C5_dimension_bug :
    (update_embedding 0.8 0.2 0.1 [(1 : ℝ)] [(some [1, 1, 1], 1, "like")]).length = 3
    ∧ ([(1 : ℝ)]).length = 1 := by
  refine ⟨?_, rfl⟩
  have hraw : rocchioRaw 0.8 0.2 0.1 [(1 : ℝ)] [(some [1, 1, 1], 1, "like")]
      = .ok [(1 : ℝ), 1, 1] := by
    have hc : classify [((some [1, 1, 1] : Option (List ℝ)), (1 : ℝ), "like")]
        = ([([1, 1, 1], 1)], []) := by
      simp [classify]
    rw [rocchioRaw, hc]
    norm_num [centroidOf, stack, weightedSum, vadd, smul, vdiv, add1, sub1, List.replicate]
  have hn2 : norm2 [(1 : ℝ), 1, 1] = 3 := by norm_num [norm2, dot]
  rw [update_embedding_ok 0.8 0.2 0.1 _ _ _ hraw,
    if_pos (show nrm [(1 : ℝ), 1, 1] > 0 from by rw [nrm, hn2]; positivity)]
  simp [vdiv]

/-- C8: calculate_feedback_confidence computes exactly the spec clamp
formula, and its value always lies between 0.1 and 1.0 (for every input,
in particular for every valid one). -/
theorem C8_confidence_formula (i m d : ℚ) (q : ℕ) :
    Conv.calculate_feedback_confidence i m d q = Conv.estimate_confidence_spec i m d q
    ∧ 1 / 10 ≤ Conv.calculate_feedback_confidence i m d q
    ∧ Conv.calculate_feedback_confidence i m d q ≤ 1 := by
  unfold Conv.calculate_feedback_confidence Conv.estimate_confidence_spec Conv.clamp
  refine ⟨?_, le_max_left _ _, max_le (by norm_num) (min_le_left _ _)⟩
  have h : i / 10 * (6 / 10) + min (m / 5) 1 * (2 / 10) + min (d / 120) 1 * (2 / 10)
        - min ((q : ℚ) * (1 / 10)) (3 / 10)
      = 6 / 10 * (i / 10) + 2 / 10 * min (m / 5) 1 + 2 / 10 * min (d / 120) 1
        - min ((q : ℚ) * (1 / 10)) (3 / 10) := by ring
  simp only [h]

end IntelligenceLayer

/-! ## Claim theorems for the vector search -/

namespace IntelligenceLayer

open VectorStore

theorem collectResults_nil (ids : List ℕ) (fn : Option (ℕ → Bool)) (need : ℕ) :
    collectResults ids fn [] need = [] := rfl

theorem collectResults_cons (ids : List ℕ) (fn : Option (ℕ → Bool)) (p : ℕ × ℚ)
    (rest : List (ℕ × ℚ)) (need : ℕ) :
    collectResults ids fn (p :: rest) need =
      if p.1 < ids.length then
        if (match fn with | some f => f (ids.getD p.1 0) | none => true) then
          if need ≤ 1 then [(ids.getD p.1 0, p.2)]
          else (ids.getD p.1 0, p.2) :: collectResults ids fn rest (need - 1)
        else collectResults ids fn rest need
      else collectResults ids fn rest need := rfl

theorem collectResults_length_le (ids : List ℕ) (fn : Option (ℕ → Bool)) :
    ∀ (L : List (ℕ × ℚ)) (need : ℕ), 1 ≤ need → (collectResults ids fn L need).length ≤ need := by
  intro L
  induction L with
  | nil => intro need _; simp [collectResults_nil]
  | cons p rest ih =>
    intro need hneed
    rw [collectResults_cons]
    split_ifs with hi hf hstop
    · simp [hneed]
    · have := ih (need - 1) (by omega)
      simp only [List.length_cons]
      omega
    · exact ih need hneed
    · exact ih need hneed

theorem collectResults_length_eq (ids : List ℕ) (fn : Option (ℕ → Bool)) :
    ∀ (L : List (ℕ × ℚ)) (need : ℕ), 1 ≤ need →
      (collectResults ids fn L need).length = min need (L.countP (passes ids fn)) := by
  intro L
  induction L with
  | nil => intro need _; simp [collectResults_nil]
  | cons p rest ih =>
    intro need hneed
    rw [collectResults_cons]
    split_ifs with hi hf hstop
    · have hp : passes ids fn p = true := by
        unfold passes
        rw [Bool.and_eq_true]
        exact ⟨by simpa using hi, hf⟩
      simp only [List.countP_cons, hp, if_true, List.length_singleton]
      omega
    · have hp : passes ids fn p = true := by
        unfold passes
        rw [Bool.and_eq_true]
        exact ⟨by simpa using hi, hf⟩
      have hrec := ih (need - 1) (by omega)
      simp only [List.countP_cons, hp, if_true, List.length_cons, hrec]
      omega
    · have hp : passes ids fn p = false := by
        unfold passes
        rw [Bool.and_eq_false_iff]
        right
        simpa using hf
      have hrec := ih need hneed
      simp only [List.countP_cons, hp, if_false, hrec, Bool.false_eq_true, add_zero]
    · have hp : passes ids fn p = false := by
        unfold passes
        rw [Bool.and_eq_false_iff]
        left
        simpa using hi
      have hrec := ih need hneed
      simp only [List.countP_cons, hp, if_false, hrec, Bool.false_eq_true, add_zero]

/-- C6 (amended): a query whose length differs from the index dimension
makes search return the empty list (after logging); no exception is
raised and the query is never padded or truncated. -/
theorem C6_mismatch_returns_empty (d : ℕ) (mat : List (List ℚ)) (ids : List ℕ)
    (q : List ℚ) (top_k : ℕ) (fn : Option (ℕ → Bool)) (h : q.length ≠ d) :
    search d mat ids q top_k fn = [] := by
  by_cases h1 : q.length = 0
  · simp [search, h1]
  · by_cases h2 : ids.isEmpty
    · simp [search, h1, h2]
    · simp [search, h1, h2, h]

/-- C6 witness: the amended theorem at a concrete one-vector index of
dimension 2 with a three-dimensional query. -/
theorem C6_mismatch_returns_empty_witness :
    search 2 [[(0 : ℚ), 0]] [0] [1, 2, 3] 5 none = [] :=
  C6_mismatch_returns_empty 2 [[(0 : ℚ), 0]] [0] [1, 2, 3] 5 none (by decide)

/-- C6 counterexample to the claim as stated: the mismatched query does
not surface any DimensionMismatchError (no such error exists in the
code); it yields the ordinary value [], the same value an in-dimension
query whose filter rejects everything yields, so the caller cannot
distinguish the mismatch from an empty result. -/
theorem C6_counterexample :
    search 2 [[(0 : ℚ), 0]] [0] [1, 2, 3] 5 none = []
    ∧ search 2 [[(0 : ℚ), 0]] [0] [0, 1] 5 (some (fun _ => false)) = [] := by
  exact ⟨rfl, rfl⟩

/-- C7 (amended): search never returns more than top_k results; and it
returns exactly top_k results whenever the index holds at most
20 * top_k vectors (so the over-fetch window covers the whole index) and
at least top_k indexed items satisfy the filter. (As stated, without the
window condition, the claim fails: see the counterexample with 21 items
where the only passing item is the 21st nearest.) -/
theorem C7_search_cardinality (d : ℕ) (mat : List (List ℚ)) (ids : List ℕ)
    (q : List ℚ) (top_k : ℕ) (fn : Option (ℕ → Bool)) :
    (search d mat ids q top_k fn).length ≤ top_k
    ∧ (0 < d → q.length = d → ids.length = mat.length → mat.length ≤ top_k * 20 →
        top_k ≤ passCount mat ids fn → (search d mat ids q top_k fn).length = top_k) := by
  constructor
  · unfold search
    split_ifs with h1 h2 h3 h4
    · simp
    · simp
    · simp
    · simp
    · have hk : 1 ≤ top_k := by
        rcases Nat.eq_zero_or_pos top_k with h0 | h0
        · exfalso; apply h4; simp [h0]
        · exact h0
      exact collectResults_length_le ids fn _ top_k hk
  · intro hd hq hids hcover hpass
    rcases Nat.eq_zero_or_pos top_k with hk0 | hk
    · subst hk0
      unfold search
      split_ifs with h1 h2 h3 h4
      · rfl
      · rfl
      · rfl
      · rfl
      · exfalso; apply h4; simp
    · have hm : 1 ≤ passCount mat ids fn := le_trans hk hpass
      have hmatlen : passCount mat ids fn ≤ mat.length := by
        unfold passCount
        calc ((List.range mat.length).filter _).length
            ≤ (List.range mat.length).length := List.length_filter_le _ _
          _ = mat.length := List.length_range _
      have hmat : 1 ≤ mat.length := le_trans hm hmatlen
      have h1n : ¬(q.length = 0) := by omega
      have h2n : ¬(ids.isEmpty = true) := by
        simp only [List.isEmpty_eq_true]
        intro hnil
        rw [hnil] at hids
        simp at hids
        omega
      have h3n : ¬(q.length ≠ d) := by omega
      have h4n : ¬(min (top_k * 20) mat.length = 0) := by omega
      unfold search
      rw [if_neg h1n, if_neg h2n, if_neg h3n, if_neg h4n]
      have hmin : min (top_k * 20) mat.length = mat.length := min_eq_right hcover
      rw [hmin]
      have hfs : faissSearch mat q mat.length
          = List.insertionSort ascSnd
              ((List.range mat.length).map (fun i => (i, sqDist (mat.getD i []) q))) := by
        rw [faissSearch]
        apply List.take_of_length_le
        rw [List.length_insertionSort, List.length_map, List.length_range]
      rw [hfs, collectResults_length_eq ids fn _ top_k hk]
      have hcp : (List.insertionSort ascSnd
            ((List.range mat.length).map
              (fun i => (i, sqDist (mat.getD i []) q)))).countP (passes ids fn)
          = passCount mat ids fn := by
        rw [(List.perm_insertionSort ascSnd _).countP_eq, List.countP_map, passCount,
          List.countP_eq_length_filter]
        rfl
      rw [hcp]
      exact min_eq_left hpass

/-- C7 witness: a two-vector index of dimension 1 with an always-true
filter and top_k 1: both conjuncts of the amended theorem hold and the
search returns exactly one result. -/
theorem C7_search_cardinality_witness :
    (search 1 [[(0 : ℚ)], [1]] [0, 1] [0] 1 (some (fun _ => true))).length = 1
    ∧ (search 1 [[(0 : ℚ)], [1]] [0, 1] [0] 1 (some (fun _ => true))).length ≤ 1 :=
  ⟨(C7_search_cardinality 1 [[(0 : ℚ)], [1]] [0, 1] [0] 1 (some (fun _ => true))).2
      (by decide) (by decide) (by decide) (by decide) (by decide),
    (C7_search_cardinality 1 [[(0 : ℚ)], [1]] [0, 1] [0] 1 (some (fun _ => true))).1⟩

set_option maxRecDepth 20000 in
/-- C7 counterexample to the claim as stated: an index of 21
one-dimensional vectors where only the farthest item (id 20) satisfies
the filter. One indexed item satisfies the filter and top_k is 1, yet
search returns the empty list, because the over-fetch window
min(top_k * 20, ntotal) = 20 never reaches the only passing candidate. -/
theorem C7_counterexample :
    search 1 [[(0 : ℚ)], [1], [2], [3], [4], [5], [6], [7], [8], [9], [10], [11], [12],
        [13], [14], [15], [16], [17], [18], [19], [20]] (List.range 21) [0] 1
        (some (fun id => decide (id = 20))) = []
    ∧ 1 ≤ passCount [[(0 : ℚ)], [1], [2], [3], [4], [5], [6], [7], [8], [9], [10], [11],
        [12], [13], [14], [15], [16], [17], [18], [19], [20]] (List.range 21)
        (some (fun id => decide (id = 20))) := by
  constructor
  · with_unfolding_all rfl
  · decide

end IntelligenceLayer

/-! ## Claim theorems for the matcher and the batch adaptation -/

namespace IntelligenceLayer

/-- C10: match_items produces its final list by running the filter loop
over the raw search results, sorting the survivors by score in strictly
descending-or-equal order (stable, Python reverse=True) and truncating to
top_k; and the scores are the squared-L2 distances of the
faiss.IndexFlatL2 model, ranked ascending in the search, so the survivors
with the largest distance to the query are the ones kept and listed
first. -/
theorem C10_descending_sort (d : ℕ) (mat : List (List ℚ)) (ids : List ℕ)
    (opps : List Matcher.Opp) (cbs : String → List String) (q : List ℚ) (top_k : ℕ)
    (only_type : Option String) (max_cost : Option ℚ) (location_scope : String)
    (states cities : Option (List String)) (center : Option (ℝ × ℝ))
    (radius_miles : Option ℝ) (deadline_before : Option ℤ) :
    Matcher.match_items d mat ids opps cbs q top_k only_type max_cost location_scope
        states cities center radius_miles deadline_before
      = Except.map
          (fun results =>
            ((List.insertionSort Matcher.descSnd results).take top_k).map Prod.fst)
          (Matcher.filterLoop opps cbs max_cost location_scope states cities center
            radius_miles deadline_before
            (VectorStore.search d mat ids q (top_k * 3)
              (some (Matcher.initial_filter opps only_type))))
    ∧ (∀ results : List (Matcher.Opp × ℚ),
        List.Sorted Matcher.descSnd (List.insertionSort Matcher.descSnd results)
        ∧ (List.insertionSort Matcher.descSnd results).Perm results)
    ∧ (∀ k : ℕ, List.Sorted VectorStore.ascSnd (VectorStore.faissSearch mat q k))
    ∧ (VectorStore.faissSearch mat q mat.length).Perm
        ((List.range mat.length).map
          (fun i => (i, VectorStore.sqDist (mat.getD i []) q))) := by
  refine ⟨?_, ?_, ?_, ?_⟩
  · unfold Matcher.match_items
    cases h : Matcher.filterLoop opps cbs max_cost location_scope states cities center
        radius_miles deadline_before
        (VectorStore.search d mat ids q (top_k * 3)
          (some (Matcher.initial_filter opps only_type))) with
    | error e => simp [h, Except.map]
    | ok results => simp [h, Except.map]
  · intro results
    exact ⟨List.sorted_insertionSort Matcher.descSnd results,
      List.perm_insertionSort Matcher.descSnd results⟩
  · intro k
    unfold VectorStore.faissSearch
    exact List.Pairwise.sublist (List.take_sublist k _)
      (List.sorted_insertionSort VectorStore.ascSnd _)
  · unfold VectorStore.faissSearch
    rw [List.take_of_length_le (by rw [List.length_insertionSort, List.length_map,
      List.length_range])]
    exact List.perm_insertionSort VectorStore.ascSnd _

/-- C9 counterexample: on the five-user scenario (one wrong-length
feedback embedding, four valid), batch_update_profiles does not report
1 failure and 4 successes: the wrong-length embedding never raises,
because update_embedding catches the numpy shape error internally and
returns the base profile, so that user is counted as a success. -/
theorem C9_counterexample :
    ¬ ((Profiles.batch_update_profiles Profiles.scenarioUsers 100).error_count = 1
        ∧ (Profiles.batch_update_profiles Profiles.scenarioUsers 100).updated_count = 4) := by
  intro h
  have h1 : (Profiles.batch_update_profiles Profiles.scenarioUsers 100).error_count = 0 := rfl
  rw [h1] at h
  exact absurd h.1 (by norm_num)

/-- C9 (amended): the batch is independent and never aborts, but on the
scenario of the claim it reports 5 successes and 0 failures, because the
failed Rocchio computation for the malformed user is swallowed inside
update_embedding; that user is counted as updated and their stored
profile is the unchanged base vector. -/
theorem C9_batch_counts :
    Profiles.batch_update_profiles Profiles.scenarioUsers 100
      = { total_users := 5, updated_count := 5, error_count := 0 }
    ∧ Profiles.update_user_embedding_enhanced (some ⟨some [1, 0]⟩)
        [⟨some [1, 2, 3], some 1, "like"⟩] = .ok (some [1, 0]) := by
  exact ⟨rfl, rfl⟩

end IntelligenceLayer
